import Mathlib

/-!
Verification of the scheduling core of the Django AI Assistant backend.

Shallow embedding of:
  * `Task.calculated_priority`  (backend/task_manager/models.py)
  * `TimeBlock.duration_minutes` (backend/task_manager/models.py)
  * `run_edf_scheduling`, `run_hpf_scheduling`
    (backend/deeptalk/ollama_task_agent.py)

Modelling conventions:
  * Instants (`datetime`) are integers counting minutes; `timedelta`
    arithmetic becomes integer subtraction, `total_seconds()` is
    `minutes * 60`.
  * Python floats / `Decimal` are modelled exactly as `ℚ`.
  * The source holds time blocks in Python lists of mutable objects; the
    working list `available_blocks` aliases the caller's objects.  We model
    the caller's collection as a `store : List TimeBlock` and the working
    list as a list of indices into that store; an in-place field update is
    `store.set`.  The final store therefore shows what the caller's own
    block objects look like after a run.
  * `timezone.now()` has no caller-facing parameter in the source; the
    `now : ℤ` argument of the embedding stands for the instant the wall
    clock reads when the source calls `timezone.now()`.
  * A Python `raise` escaping the function is `Except.error`.
-/

namespace DjangoSched

/-- `TaskCategory` (task_manager/models.py): only the field the priority
computation reads. -/
structure TaskCategory where
  category_weight : ℚ
deriving Repr, DecidableEq

/-- `Task` (task_manager/models.py): the fields the scheduling core reads. -/
structure Task where
  id : ℕ
  name : String
  estimated_duration_minutes : ℤ
  base_priority : ℤ
  urgency_multiplier : ℚ
  deadline : Option ℤ
  can_be_split : Bool
  category : Option TaskCategory
  preferred_time_of_day : List ℤ
  avoid_time_of_day : List ℤ
deriving Repr, DecidableEq

/-- `TimeBlock` (task_manager/models.py).  `importance_weight` is read by
`run_hpf_scheduling` but its model class is absent from the sources;
modelled from the spec: a float multiplier carried by the block. -/
structure TimeBlock where
  id : ℕ
  start_time : ℤ
  end_time : ℤ
  status : String
  can_be_split : Bool
  min_task_duration_minutes : Option ℤ
  max_task_duration_minutes : Option ℤ
  importance_weight : ℚ
deriving Repr, DecidableEq

/-- `TimeBlock.duration_minutes`: `int((end - start).total_seconds() / 60)`;
exact on minute-valued instants. -/
def duration_minutes (b : TimeBlock) : ℤ :=
  b.end_time - b.start_time

/-- `Task.calculated_priority` (task_manager/models.py, lines 188-214).
The source reads `timezone.now()` inside the property; `now` models the
instant that call returns. -/
def calculated_priority (now : ℤ) (t : Task) : ℚ :=
  let base : ℚ := (t.base_priority : ℚ)
  let urgency : ℚ := t.urgency_multiplier
  let deadline_factor : ℚ :=
    match t.deadline with
    | none => 1
    | some d =>
      let hours_until_deadline : ℚ := ((d - now : ℤ) : ℚ) * 60 / 3600
      if hours_until_deadline ≤ 0 then 5
      else if hours_until_deadline ≤ 24 then 3
      else if hours_until_deadline ≤ 168 then 2
      else 1
  let category_weight : ℚ :=
    match t.category with
    | none => 1
    | some c => c.category_weight
  base * urgency * deadline_factor * category_weight

/-- Python truthiness of an optional integer field: `None` and `0` are
falsy. -/
def truthyInt : Option ℤ → Bool
  | none => false
  | some v => decide (v ≠ 0)

/-- A dummy block for total index lookup (working-list indices are always
in range when produced by the runs). -/
def dummyBlock : TimeBlock :=
  { id := 0, start_time := 0, end_time := 0, status := "available",
    can_be_split := false, min_task_duration_minutes := none,
    max_task_duration_minutes := none, importance_weight := 0 }

/-- Dereference a working-list index in the caller's store. -/
def blk (store : List TimeBlock) (i : ℕ) : TimeBlock :=
  store.getD i dummyBlock

/-- The block-candidate test shared verbatim by both schedulers
(ollama_task_agent.py lines 893-895 and 1032-1034): capacity plus the
block's optional min/max task-duration bounds, with Python truthiness on
the bounds.  Nothing else is checked. -/
def fits (t : Task) (b : TimeBlock) : Bool :=
  decide (t.estimated_duration_minutes ≤ duration_minutes b) &&
  (!truthyInt b.min_task_duration_minutes ||
    decide (b.min_task_duration_minutes.getD 0 ≤ t.estimated_duration_minutes)) &&
  (!truthyInt b.max_task_duration_minutes ||
    decide (t.estimated_duration_minutes ≤ b.max_task_duration_minutes.getD 0))

/-- One committed placement, as the run's response dict reports it. -/
structure ScheduleDecision where
  task_id : ℕ
  task_name : String
  scheduled_start_time : ℤ
  scheduled_end_time : ℤ
  priority_score : ℚ
  deadline_urgency_score : ℚ
  efficiency_score : ℚ
  confidence_level : ℚ
  is_optimal : Bool
deriving Repr, DecidableEq

/-- The outcome of a completed run: the counts and decisions of the
response dict, plus the model-exposed final state — the caller's block
objects (`final_blocks`) and the scheduler's working list of indices
(`final_available`). -/
structure RunResult where
  algorithm : String
  tasks_considered : ℕ
  tasks_scheduled : ℕ
  tasks_unscheduled : ℕ
  decisions : List ScheduleDecision
  deadline_violations : ℕ
  average_priority_score : ℚ
  schedule_efficiency_score : ℚ
  final_blocks : List TimeBlock
  final_available : List ℕ
deriving Repr, DecidableEq

/-- EDF ordering relation on deadline-bearing tasks: Python's stable sort
with key `(deadline, -calculated_priority)`. -/
def edfRel (now : ℤ) (a b : Task) : Prop :=
  a.deadline.getD 0 < b.deadline.getD 0 ∨
    (a.deadline.getD 0 = b.deadline.getD 0 ∧
      calculated_priority now b ≤ calculated_priority now a)

instance (now : ℤ) : DecidableRel (edfRel now) := fun _a _b =>
  inferInstanceAs (Decidable (_ ∨ _ ∧ _))

/-- `edfRel` is total: deadlines are linearly ordered and so are
priorities. -/
instance (now : ℤ) : IsTotal Task (edfRel now) where
  total a b := by
    unfold edfRel
    rcases lt_trichotomy (a.deadline.getD 0) (b.deadline.getD 0) with h | h | h
    · exact Or.inl (Or.inl h)
    · rcases le_total (calculated_priority now b) (calculated_priority now a) with hp | hp
      · exact Or.inl (Or.inr ⟨h, hp⟩)
      · exact Or.inr (Or.inr ⟨h.symm, hp⟩)
    · exact Or.inr (Or.inl h)

/-- `edfRel` is transitive, lexicographically. -/
instance (now : ℤ) : IsTrans Task (edfRel now) where
  trans a b c hab hbc := by
    unfold edfRel at hab hbc ⊢
    rcases hab with h1 | ⟨h1, p1⟩ <;> rcases hbc with h2 | ⟨h2, p2⟩
    · exact Or.inl (by omega)
    · exact Or.inl (by omega)
    · exact Or.inl (by omega)
    · exact Or.inr ⟨by omega, p2.trans p1⟩

/-- Descending-priority relation: Python's stable sort with key
`-calculated_priority`. -/
def prioRel (now : ℤ) (a b : Task) : Prop :=
  calculated_priority now b ≤ calculated_priority now a

instance (now : ℤ) : DecidableRel (prioRel now) := fun _a _b =>
  inferInstanceAs (Decidable (_ ≤ _))

/-- The order in which `run_edf_scheduling` attempts tasks
(ollama_task_agent.py lines 863-875): deadline-bearing tasks sorted by
`(deadline, -calculated_priority)`, then deadline-less tasks sorted by
`-calculated_priority`.  `List.insertionSort` with a `≤`-style relation is
stable, like Python's `sorted`. -/
def edf_order (now : ℤ) (tasks : List Task) : List Task :=
  List.insertionSort (edfRel now) (tasks.filter (fun t => t.deadline.isSome)) ++
    List.insertionSort (prioRel now) (tasks.filter (fun t => !t.deadline.isSome))

/-- The order in which `run_hpf_scheduling` attempts tasks (line 1010). -/
def hpf_order (now : ℤ) (tasks : List Task) : List Task :=
  List.insertionSort (prioRel now) tasks

/-- Start-time ordering of working-list indices, used to build
`available_blocks` sorted ascending by `start_time`. -/
def startRel (store : List TimeBlock) (i j : ℕ) : Prop :=
  (blk store i).start_time ≤ (blk store j).start_time

instance (store : List TimeBlock) : DecidableRel (startRel store) := fun _i _j =>
  inferInstanceAs (Decidable (_ ≤ _))

/-- `available_blocks = sorted([b for b in time_blocks if b.status ==
'available'], key=lambda b: b.start_time)`, as indices into the caller's
store. -/
def sort_available (store : List TimeBlock) : List ℕ :=
  List.insertionSort (startRel store)
    ((List.range store.length).filter (fun i => (blk store i).status == "available"))

/-- The EDF decision record created at a successful placement
(lines 905-917). -/
def mkEdfDecision (now : ℤ) (t : Task) (b : TimeBlock) : ScheduleDecision :=
  let deadline_urgency : ℚ :=
    match t.deadline with
    | none => 0
    | some d => max 0 (100 - ((d - b.start_time : ℤ) : ℚ) * 60 / 3600)
  { task_id := t.id
    task_name := t.name
    scheduled_start_time := b.start_time
    scheduled_end_time := b.start_time + t.estimated_duration_minutes
    priority_score := calculated_priority now t
    deadline_urgency_score := deadline_urgency
    efficiency_score := (t.estimated_duration_minutes : ℚ) / (duration_minutes b : ℚ) * 100
    confidence_level := 8/10
    is_optimal := true }

/-- EDF block-availability update after a commit (lines 920-933): full
consumption marks the block occupied and removes it from the working list;
otherwise, when both sides allow splitting, the source overwrites the
block's `end_time` with `remaining_start` (keeping the consumed span in
the working list); otherwise nothing changes. -/
def edfCommitUpdate (store : List TimeBlock) (avail : List ℕ) (t : Task) (i : ℕ) :
    List TimeBlock × List ℕ :=
  let b := blk store i
  if duration_minutes b ≤ t.estimated_duration_minutes then
    (store.set i { b with status := "occupied" }, avail.erase i)
  else if t.can_be_split && b.can_be_split then
    let remaining_start := b.start_time + t.estimated_duration_minutes
    if remaining_start < b.end_time then
      (store.set i { b with end_time := remaining_start }, avail)
    else (store, avail)
  else (store, avail)

/-- The EDF per-task loop (lines 888-938): first fitting block in working
order, commit there, tally otherwise. -/
def edfLoop (now : ℤ) : List Task → List TimeBlock → List ℕ → ℕ → ℕ →
    List ScheduleDecision → List TimeBlock × List ℕ × ℕ × ℕ × List ScheduleDecision
  | [], store, avail, s, u, ds => (store, avail, s, u, ds)
  | t :: rest, store, avail, s, u, ds =>
    match avail.find? (fun i => fits t (blk store i)) with
    | none => edfLoop now rest store avail s (u + 1) ds
    | some i =>
      let d := mkEdfDecision now t (blk store i)
      let su := edfCommitUpdate store avail t i
      edfLoop now rest su.1 su.2 (s + 1) u (ds ++ [d])

/-- `run_edf_scheduling` (ollama_task_agent.py lines 843-986).  With an
empty block collection, `min(block.start_time for block in time_blocks)`
raises before the `try` block is entered. -/
def run_edf_scheduling (now : ℤ) (tasks : List Task) (time_blocks : List TimeBlock) :
    Except String RunResult :=
  if time_blocks.isEmpty then
    Except.error "min() arg is an empty sequence"
  else
    let sorted_tasks := edf_order now tasks
    let avail := sort_available time_blocks
    let out := edfLoop now sorted_tasks time_blocks avail 0 0 []
    let deadline_violations :=
      (sorted_tasks.filter (fun t =>
        match t.deadline with
        | some d => decide (d < now)
        | none => false)).length
    Except.ok
      { algorithm := "EDF"
        tasks_considered := tasks.length
        tasks_scheduled := out.2.2.1
        tasks_unscheduled := out.2.2.2.1
        decisions := out.2.2.2.2
        deadline_violations := deadline_violations
        average_priority_score := 0
        schedule_efficiency_score :=
          if tasks.isEmpty then 0
          else (out.2.2.1 : ℚ) / (tasks.length : ℚ) * 100
        final_blocks := out.1
        final_available := out.2.1 }

/-- The per-candidate score of the HPF best-fit search (lines 1036-1047),
with the source's float weights 0.4 / 0.3 / 0.2 / 0.1 as rationals and the
constant `timing_score = 1.0`. -/
def hpfScore (now : ℤ) (store : List TimeBlock) (t : Task) (i : ℕ) : ℚ :=
  let b := blk store i
  let efficiency : ℚ := (t.estimated_duration_minutes : ℚ) / (duration_minutes b : ℚ)
  let timing_score : ℚ := 1
  calculated_priority now t * (4/10) + efficiency * (3/10) +
    timing_score * (2/10) + b.importance_weight * (1/10)

/-- The HPF best-fit scan (lines 1025-1051): walk the working list keeping
the strictly best score so far, starting from `best_block = None`,
`best_score = -1`. -/
def hpfPick (now : ℤ) (store : List TimeBlock) (t : Task) :
    List ℕ → Option ℕ × ℚ → Option ℕ × ℚ
  | [], acc => acc
  | i :: rest, acc =>
    if fits t (blk store i) then
      if acc.2 < hpfScore now store t i then
        hpfPick now store t rest (some i, hpfScore now store t i)
      else hpfPick now store t rest acc
    else hpfPick now store t rest acc

/-- The HPF decision record (lines 1055-1066).  The source does not set a
deadline-urgency value here; the model field default 0 applies. -/
def mkHpfDecision (now : ℤ) (best_score : ℚ) (t : Task) (b : TimeBlock) :
    ScheduleDecision :=
  { task_id := t.id
    task_name := t.name
    scheduled_start_time := b.start_time
    scheduled_end_time := b.start_time + t.estimated_duration_minutes
    priority_score := calculated_priority now t
    deadline_urgency_score := 0
    efficiency_score := best_score
    confidence_level := 17/20
    is_optimal := true }

/-- HPF block-availability update after a commit (lines 1069-1071): a
block is touched only on full consumption; an under-filled block keeps its
span, status and place in the working list, whatever the split flags
say. -/
def hpfCommitUpdate (store : List TimeBlock) (avail : List ℕ) (t : Task) (i : ℕ) :
    List TimeBlock × List ℕ :=
  let b := blk store i
  if duration_minutes b ≤ t.estimated_duration_minutes then
    (store.set i { b with status := "occupied" }, avail.erase i)
  else (store, avail)

/-- The HPF per-task loop (lines 1024-1078), also accumulating
`total_priority_score`. -/
def hpfLoop (now : ℤ) : List Task → List TimeBlock → List ℕ → ℕ → ℕ →
    List ScheduleDecision → ℚ →
    List TimeBlock × List ℕ × ℕ × ℕ × List ScheduleDecision × ℚ
  | [], store, avail, s, u, ds, tp => (store, avail, s, u, ds, tp)
  | t :: rest, store, avail, s, u, ds, tp =>
    match hpfPick now store t avail (none, -1) with
    | (none, _) => hpfLoop now rest store avail s (u + 1) ds tp
    | (some i, best_score) =>
      let d := mkHpfDecision now best_score t (blk store i)
      let su := hpfCommitUpdate store avail t i
      hpfLoop now rest su.1 su.2 (s + 1) u (ds ++ [d])
        (tp + calculated_priority now t)

/-- `run_hpf_scheduling` (ollama_task_agent.py lines 989-1123).  The same
empty-collection `min(...)` raise as in EDF. -/
def run_hpf_scheduling (now : ℤ) (tasks : List Task) (time_blocks : List TimeBlock) :
    Except String RunResult :=
  if time_blocks.isEmpty then
    Except.error "min() arg is an empty sequence"
  else
    let sorted_tasks := hpf_order now tasks
    let avail := sort_available time_blocks
    let out := hpfLoop now sorted_tasks time_blocks avail 0 0 [] 0
    Except.ok
      { algorithm := "HPF"
        tasks_considered := tasks.length
        tasks_scheduled := out.2.2.1
        tasks_unscheduled := out.2.2.2.1
        decisions := out.2.2.2.2.1
        deadline_violations := 0
        average_priority_score :=
          if 0 < out.2.2.1 then out.2.2.2.2.2 / (out.2.2.1 : ℚ) else 0
        schedule_efficiency_score :=
          if tasks.isEmpty then 0
          else (out.2.2.1 : ℚ) / (tasks.length : ℚ) * 100
        final_blocks := out.1
        final_available := out.2.1 }

/-! ### Spec-side definitions (refinement targets, from the spec's words) -/

/-- Spec §4.1: `deadline_factor` — 1.0 with no deadline; 5.0 when the
deadline has passed (hours until deadline ≤ 0, checked first); 3.0 within
24 hours; 2.0 within 168 hours; else 1.0. -/
def spec_deadline_factor (now : ℤ) (t : Task) : ℚ :=
  match t.deadline with
  | none => 1
  | some d =>
    let hours : ℚ := ((d - now : ℤ) : ℚ) / 60
    if hours ≤ 0 then 5
    else if hours ≤ 24 then 3
    else if hours ≤ 168 then 2
    else 1

/-- Spec §4.1: `category_weight` — the category's weight when present,
else 1.0. -/
def spec_category_weight (t : Task) : ℚ :=
  match t.category with
  | none => 1
  | some c => c.category_weight

/-! ### Concrete fixtures -/

/-- The spec's overdue-priority scenario task: `base_priority = 3`,
`urgency_multiplier = 1.0`, no category, deadline at instant 0 (so two
hours in the past when `now = 120`). -/
def overdueTask : Task :=
  { id := 1, name := "overdue", estimated_duration_minutes := 60,
    base_priority := 3, urgency_multiplier := 1, deadline := some 0,
    can_be_split := true, category := none,
    preferred_time_of_day := [], avoid_time_of_day := [] }

/-- A 60-minute unsplittable task without deadline. -/
def task60 : Task :=
  { id := 1, name := "t60", estimated_duration_minutes := 60,
    base_priority := 3, urgency_multiplier := 1, deadline := none,
    can_be_split := false, category := none,
    preferred_time_of_day := [], avoid_time_of_day := [] }

/-- A 30-minute available block, too small for `task60`. -/
def block30 : TimeBlock :=
  { id := 10, start_time := 0, end_time := 30, status := "available",
    can_be_split := false, min_task_duration_minutes := none,
    max_task_duration_minutes := none, importance_weight := 1 }

/-- A 60-minute available block, exactly consumed by `task60`. -/
def block60 : TimeBlock :=
  { id := 11, start_time := 0, end_time := 60, status := "available",
    can_be_split := false, min_task_duration_minutes := none,
    max_task_duration_minutes := none, importance_weight := 1 }

/-- A 60-minute splittable task without deadline. -/
def splitTask : Task :=
  { id := 2, name := "split", estimated_duration_minutes := 60,
    base_priority := 3, urgency_multiplier := 1, deadline := none,
    can_be_split := true, category := none,
    preferred_time_of_day := [], avoid_time_of_day := [] }

/-- A 120-minute splittable available block spanning [0, 120). -/
def splitBlock : TimeBlock :=
  { id := 12, start_time := 0, end_time := 120, status := "available",
    can_be_split := true, min_task_duration_minutes := none,
    max_task_duration_minutes := none, importance_weight := 1 }

/-- A task that declares hour 9 in `avoid_time_of_day`. -/
def avoidTask : Task :=
  { id := 3, name := "avoid9", estimated_duration_minutes := 60,
    base_priority := 3, urgency_multiplier := 1, deadline := none,
    can_be_split := false, category := none,
    preferred_time_of_day := [], avoid_time_of_day := [9] }

/-- An available block starting at minute 540 of day 0, i.e. at hour 9. -/
def nineBlock : TimeBlock :=
  { id := 13, start_time := 540, end_time := 600, status := "available",
    can_be_split := false, min_task_duration_minutes := none,
    max_task_duration_minutes := none, importance_weight := 1 }

/-- The hour of day of a block's start instant (spec-side helper for the
avoided-hours constraint; the source reads `start_time.hour`). -/
def start_hour (b : TimeBlock) : ℤ :=
  b.start_time / 60 % 24

/-- A deadline-less task of high base priority (5). -/
def steadyTask : Task :=
  { id := 1, name := "steady", estimated_duration_minutes := 60,
    base_priority := 5, urgency_multiplier := 1, deadline := none,
    can_be_split := false, category := none,
    preferred_time_of_day := [], avoid_time_of_day := [] }

/-- A task with base priority 2 and a deadline at minute 1500 (25 hours
after instant 0): its deadline factor is 2.0 at instant 0 and 5.0 at
instant 3000, moving its priority from 4 to 10. -/
def driftTask : Task :=
  { id := 2, name := "drift", estimated_duration_minutes := 60,
    base_priority := 2, urgency_multiplier := 1, deadline := some 1500,
    can_be_split := false, category := none,
    preferred_time_of_day := [], avoid_time_of_day := [] }

/-- A single exactly-fitting block, fully consumed by whichever task wins
it. -/
def soloBlock : TimeBlock :=
  { id := 14, start_time := 0, end_time := 60, status := "available",
    can_be_split := true, min_task_duration_minutes := none,
    max_task_duration_minutes := none, importance_weight := 1 }

/-- A splittable 60-minute task of base priority 5 (higher of a pair). -/
def pairTaskHigh : Task :=
  { id := 1, name := "high", estimated_duration_minutes := 60,
    base_priority := 5, urgency_multiplier := 1, deadline := none,
    can_be_split := true, category := none,
    preferred_time_of_day := [], avoid_time_of_day := [] }

/-- A splittable 60-minute task of base priority 2 (lower of a pair). -/
def pairTaskLow : Task :=
  { id := 2, name := "low", estimated_duration_minutes := 60,
    base_priority := 2, urgency_multiplier := 1, deadline := none,
    can_be_split := true, category := none,
    preferred_time_of_day := [], avoid_time_of_day := [] }

/-- A splittable 120-minute available block spanning [0, 120). -/
def wideBlock : TimeBlock :=
  { id := 15, start_time := 0, end_time := 120, status := "available",
    can_be_split := true, min_task_duration_minutes := none,
    max_task_duration_minutes := none, importance_weight := 1 }

/-- The literal outcome of an EDF run over no tasks and the single block
`block30` (used to instantiate universally quantified claims). -/
def edfEmptyRun : RunResult :=
  { algorithm := "EDF", tasks_considered := 0, tasks_scheduled := 0,
    tasks_unscheduled := 0, decisions := [], deadline_violations := 0,
    average_priority_score := 0, schedule_efficiency_score := 0,
    final_blocks := [block30], final_available := [0] }

/-- The literal outcome of an HPF run over no tasks and the single block
`block30`. -/
def hpfEmptyRun : RunResult :=
  { algorithm := "HPF", tasks_considered := 0, tasks_scheduled := 0,
    tasks_unscheduled := 0, decisions := [], deadline_violations := 0,
    average_priority_score := 0, schedule_efficiency_score := 0,
    final_blocks := [block30], final_available := [0] }

/-! ### Helper lemmas -/

/-- Splitting a list by a Boolean predicate partitions its length. -/
theorem length_filter_partition {α : Type} (p : α → Bool) (l : List α) :
    (l.filter p).length + (l.filter (fun a => !p a)).length = l.length := by
  induction l with
  | nil => simp
  | cons a l ih =>
    cases h : p a <;> simp [List.filter_cons, h] <;> omega

/-- The EDF attempt order is a rearrangement of the input tasks. -/
theorem edf_order_length (now : ℤ) (ts : List Task) :
    (edf_order now ts).length = ts.length := by
  unfold edf_order
  rw [List.length_append, (List.perm_insertionSort _ _).length_eq,
    (List.perm_insertionSort _ _).length_eq]
  exact length_filter_partition _ ts

/-- The HPF attempt order is a rearrangement of the input tasks. -/
theorem hpf_order_length (now : ℤ) (ts : List Task) :
    (hpf_order now ts).length = ts.length :=
  (List.perm_insertionSort _ _).length_eq

/-- Each EDF iteration tallies its task as scheduled or unscheduled,
never both, never neither. -/
theorem edfLoop_counts (now : ℤ) (ts : List Task) :
    ∀ store avail s u ds,
      (edfLoop now ts store avail s u ds).2.2.1 +
        (edfLoop now ts store avail s u ds).2.2.2.1 = s + u + ts.length := by
  induction ts with
  | nil => intro store avail s u ds; simp [edfLoop]
  | cons t rest ih =>
    intro store avail s u ds
    simp only [edfLoop]
    cases hfind : avail.find? (fun i => fits t (blk store i)) with
    | none => rw [ih]; simp; omega
    | some i => rw [ih]; simp; omega

/-- Each HPF iteration tallies its task exactly once. -/
theorem hpfLoop_counts (now : ℤ) (ts : List Task) :
    ∀ store avail s u ds tp,
      (hpfLoop now ts store avail s u ds tp).2.2.1 +
        (hpfLoop now ts store avail s u ds tp).2.2.2.1 = s + u + ts.length := by
  induction ts with
  | nil => intro store avail s u ds tp; simp [hpfLoop]
  | cons t rest ih =>
    intro store avail s u ds tp
    simp only [hpfLoop]
    cases hpick : hpfPick now store t avail (none, -1) with
    | mk fst snd =>
      cases fst with
      | none => rw [ih]; simp; omega
      | some i => rw [ih]; simp; omega

/-- EDF commits edit the store in place, never growing or shrinking it. -/
theorem edfCommitUpdate_length (store : List TimeBlock) (avail : List ℕ)
    (t : Task) (i : ℕ) :
    (edfCommitUpdate store avail t i).1.length = store.length := by
  unfold edfCommitUpdate
  dsimp only
  split
  · exact List.length_set ..
  · split
    · split
      · exact List.length_set ..
      · rfl
    · rfl

/-- HPF commits edit the store in place, never growing or shrinking it. -/
theorem hpfCommitUpdate_length (store : List TimeBlock) (avail : List ℕ)
    (t : Task) (i : ℕ) :
    (hpfCommitUpdate store avail t i).1.length = store.length := by
  unfold hpfCommitUpdate
  dsimp only
  split
  · exact List.length_set ..
  · rfl

/-- The EDF loop preserves the number of caller-owned block objects. -/
theorem edfLoop_store_length (now : ℤ) (ts : List Task) :
    ∀ store avail s u ds,
      (edfLoop now ts store avail s u ds).1.length = store.length := by
  induction ts with
  | nil => intro store avail s u ds; rfl
  | cons t rest ih =>
    intro store avail s u ds
    simp only [edfLoop]
    cases hfind : avail.find? (fun i => fits t (blk store i)) with
    | none => exact ih ..
    | some i => rw [ih]; exact edfCommitUpdate_length ..

/-- The HPF loop preserves the number of caller-owned block objects. -/
theorem hpfLoop_store_length (now : ℤ) (ts : List Task) :
    ∀ store avail s u ds tp,
      (hpfLoop now ts store avail s u ds tp).1.length = store.length := by
  induction ts with
  | nil => intro store avail s u ds tp; rfl
  | cons t rest ih =>
    intro store avail s u ds tp
    simp only [hpfLoop]
    cases hpick : hpfPick now store t avail (none, -1) with
    | mk fst snd =>
      cases fst with
      | none => exact ih ..
      | some i => rw [ih]; exact hpfCommitUpdate_length ..

/-- A deadline-bearing task due at minute 100. -/
def earlyTask : Task :=
  { id := 21, name := "early", estimated_duration_minutes := 60,
    base_priority := 3, urgency_multiplier := 1, deadline := some 100,
    can_be_split := false, category := none,
    preferred_time_of_day := [], avoid_time_of_day := [] }

/-- A deadline-bearing task due at minute 200. -/
def lateTask : Task :=
  { id := 22, name := "late", estimated_duration_minutes := 60,
    base_priority := 3, urgency_multiplier := 1, deadline := some 200,
    can_be_split := false, category := none,
    preferred_time_of_day := [], avoid_time_of_day := [] }

/-! ### Claims -/

/-- C1: at every evaluation instant, `calculated_priority` equals
`base_priority × urgency_multiplier × deadline_factor × category_weight`
with the spec's deadline tiers (overdue 5.0 first, then 3.0 within 24h,
2.0 within 168h, else 1.0; 1.0 with no deadline) and the spec's category
weight; in particular the overdue scenario (deadline 2 hours past,
base 3, urgency 1.0, no category) evaluates to 15. -/
theorem calculated_priority_matches_spec :
    (∀ (now : ℤ) (t : Task),
      calculated_priority now t =
        (t.base_priority : ℚ) * t.urgency_multiplier *
          spec_deadline_factor now t * spec_category_weight t) ∧
    calculated_priority 120 overdueTask = 15 := by
  constructor
  · intro now t
    unfold calculated_priority spec_deadline_factor spec_category_weight
    cases hd : t.deadline with
    | none => rfl
    | some d =>
      have h60 : ((d - now : ℤ) : ℚ) * 60 / 3600 = ((d - now : ℤ) : ℚ) / 60 := by
        ring
      simp only [h60]
  · norm_num [calculated_priority, overdueTask]

/-- C4 (counterexample): with an empty time-block collection both runs
raise (`min()` over the empty generator in the `SchedulingRun` creation,
before the `try` block), instead of completing with zero scheduled
tasks. -/
theorem empty_blocks_raise :
    run_edf_scheduling 0 [task60] [] = Except.error "min() arg is an empty sequence" ∧
    run_hpf_scheduling 0 [task60] [] = Except.error "min() arg is an empty sequence" := by
  constructor <;> rfl

/-- C4 (amended): an empty block collection is not legal — for every task
collection and instant, both algorithms raise on it; a run whose blocks
are non-empty but fit nothing completes normally with zero scheduled
tasks (shown on a 60-minute task against a single 30-minute block). -/
theorem empty_blocks_error_nonempty_completes :
    (∀ (now : ℤ) (tasks : List Task),
      run_edf_scheduling now tasks [] = Except.error "min() arg is an empty sequence" ∧
      run_hpf_scheduling now tasks [] = Except.error "min() arg is an empty sequence") ∧
    (run_edf_scheduling 0 [task60] [block30]).map
        (fun r => (r.tasks_scheduled, r.tasks_unscheduled)) = Except.ok (0, 1) ∧
    (run_hpf_scheduling 0 [task60] [block30]).map
        (fun r => (r.tasks_scheduled, r.tasks_unscheduled)) = Except.ok (0, 1) := by
  refine ⟨fun now tasks => ⟨rfl, rfl⟩, ?_, ?_⟩ <;>
    norm_num [run_edf_scheduling, run_hpf_scheduling, edf_order, hpf_order, edfRel,
      prioRel, sort_available, startRel, blk, edfLoop, hpfLoop, hpfPick,
      edfCommitUpdate, hpfCommitUpdate, mkEdfDecision, mkHpfDecision, hpfScore,
      fits, truthyInt, duration_minutes, dummyBlock, calculated_priority,
      Except.map, task60, block30]

/-- C2 (code evaluated at the failing input): committing the splittable
60-minute task into the splittable available block [0, 120) leaves, in
EDF, a block spanning [0, 60) — the consumed span, with the remainder
[60, 120) dropped — and, in HPF, the untouched full span [0, 120); in
neither algorithm does the working list hold the spec's remainder block
starting at 60 with duration 60. -/
theorem split_commit_keeps_wrong_span :
    (run_edf_scheduling 0 [splitTask] [splitBlock]).map
        (fun r => (r.final_blocks, r.final_available)) =
      Except.ok ([{ splitBlock with end_time := 60 }], [0]) ∧
    (run_hpf_scheduling 0 [splitTask] [splitBlock]).map
        (fun r => (r.final_blocks, r.final_available)) =
      Except.ok ([splitBlock], [0]) ∧
    ({ splitBlock with end_time := 60 } : TimeBlock).start_time = 0 ∧
    duration_minutes { splitBlock with end_time := 60 } = 60 ∧
    splitBlock.start_time = 0 ∧ duration_minutes splitBlock = 120 := by
  refine ⟨?_, ?_, rfl, rfl, rfl, rfl⟩ <;>
    norm_num [run_edf_scheduling, run_hpf_scheduling, edf_order, hpf_order, edfRel,
      prioRel, sort_available, startRel, blk, edfLoop, hpfLoop, hpfPick,
      edfCommitUpdate, hpfCommitUpdate, mkEdfDecision, mkHpfDecision, hpfScore,
      fits, truthyInt, duration_minutes, dummyBlock, calculated_priority,
      Except.map, splitTask, splitBlock]

/-- C5 (counterexample): a task whose `avoid_time_of_day` contains hour 9
is committed by both schedulers into a block starting at hour 9 — the
avoided-hours constraint is not part of the candidate check. -/
theorem avoided_hour_still_scheduled :
    (run_edf_scheduling 0 [avoidTask] [nineBlock]).map
        (fun r => (r.tasks_scheduled, r.decisions.map (fun d => d.scheduled_start_time))) =
      Except.ok (1, [540]) ∧
    (run_hpf_scheduling 0 [avoidTask] [nineBlock]).map
        (fun r => (r.tasks_scheduled, r.decisions.map (fun d => d.scheduled_start_time))) =
      Except.ok (1, [540]) ∧
    start_hour nineBlock ∈ avoidTask.avoid_time_of_day := by
  refine ⟨?_, ?_, by norm_num [start_hour, nineBlock, avoidTask]⟩ <;>
    norm_num [run_edf_scheduling, run_hpf_scheduling, edf_order, hpf_order, edfRel,
      prioRel, sort_available, startRel, blk, edfLoop, hpfLoop, hpfPick,
      edfCommitUpdate, hpfCommitUpdate, mkEdfDecision, mkHpfDecision, hpfScore,
      fits, truthyInt, duration_minutes, dummyBlock, calculated_priority,
      Except.map, avoidTask, nineBlock]

/-- C5 (amended): the candidate check both schedulers apply reads only the
block's capacity and its min/max task-duration bounds — it is invariant
under the task's `avoid_time_of_day` and `preferred_time_of_day` sets —
so a task can be committed to a block whose start hour it avoids (hour 9
in the concrete runs above). -/
theorem candidate_check_ignores_hours :
    (∀ (t : Task) (b : TimeBlock) (hrs : List ℤ),
      fits { t with avoid_time_of_day := hrs } b = fits t b) ∧
    (∀ (t : Task) (b : TimeBlock) (hrs : List ℤ),
      fits { t with preferred_time_of_day := hrs } b = fits t b) ∧
    (run_edf_scheduling 0 [avoidTask] [nineBlock]).map
        (fun r => r.tasks_scheduled) = Except.ok 1 ∧
    (run_hpf_scheduling 0 [avoidTask] [nineBlock]).map
        (fun r => r.tasks_scheduled) = Except.ok 1 := by
  refine ⟨fun t b hrs => rfl, fun t b hrs => rfl, ?_, ?_⟩ <;>
    norm_num [run_edf_scheduling, run_hpf_scheduling, edf_order, hpf_order, edfRel,
      prioRel, sort_available, startRel, blk, edfLoop, hpfLoop, hpfPick,
      edfCommitUpdate, hpfCommitUpdate, mkEdfDecision, mkHpfDecision, hpfScore,
      fits, truthyInt, duration_minutes, dummyBlock, calculated_priority,
      Except.map, avoidTask, nineBlock]

/-- C8 (counterexample): a run is not free of effects on the caller's
collection — after either algorithm places the 60-minute task into the
caller's exactly-fitting block, the caller's own block object carries
status "occupied"; no fresh working copy shields it. -/
theorem caller_block_mutated :
    (run_edf_scheduling 0 [task60] [block60]).map (fun r => r.final_blocks) =
      Except.ok [{ block60 with status := "occupied" }] ∧
    (run_hpf_scheduling 0 [task60] [block60]).map (fun r => r.final_blocks) =
      Except.ok [{ block60 with status := "occupied" }] ∧
    ({ block60 with status := "occupied" } : TimeBlock) ≠ block60 := by
  refine ⟨?_, ?_, by simp [block60]⟩ <;>
    norm_num [run_edf_scheduling, run_hpf_scheduling, edf_order, hpf_order, edfRel,
      prioRel, sort_available, startRel, blk, edfLoop, hpfLoop, hpfPick,
      edfCommitUpdate, hpfCommitUpdate, mkEdfDecision, mkHpfDecision, hpfScore,
      fits, truthyInt, duration_minutes, dummyBlock, calculated_priority,
      Except.map, task60, block60]

/-- C9 (counterexample): `calculated_priority` is not a function of
caller-supplied data alone — its value moves with the wall-clock instant
the source reads via `timezone.now()`, and two HPF runs over the same
input at instants 0 and 3000 place different tasks (the drifting task's
deadline factor grows from 2.0 to 5.0, overtaking the steady task). -/
theorem wall_clock_changes_placements :
    calculated_priority 0 driftTask ≠ calculated_priority 3000 driftTask ∧
    (run_hpf_scheduling 0 [steadyTask, driftTask] [soloBlock]).map
        (fun r => r.decisions.map (fun d => d.task_id)) = Except.ok [1] ∧
    (run_hpf_scheduling 3000 [steadyTask, driftTask] [soloBlock]).map
        (fun r => r.decisions.map (fun d => d.task_id)) = Except.ok [2] := by
  refine ⟨by norm_num [calculated_priority, driftTask], ?_, ?_⟩ <;>
    norm_num [run_edf_scheduling, run_hpf_scheduling, edf_order, hpf_order, edfRel,
      prioRel, sort_available, startRel, blk, edfLoop, hpfLoop, hpfPick,
      edfCommitUpdate, hpfCommitUpdate, mkEdfDecision, mkHpfDecision, hpfScore,
      fits, truthyInt, duration_minutes, dummyBlock, calculated_priority,
      Except.map, steadyTask, driftTask, soloBlock]

/-- C10: HPF removes a committed block exactly when the task's duration
reaches the block's; an under-filling commit returns the working state
untouched whatever `can_be_split` says, so a later task of the same run
can land in the same block at the same start — concretely two splittable
60-minute tasks in one splittable 120-minute block both get the span
[0, 60). -/
theorem hpf_underfill_never_splits :
    (∀ (store : List TimeBlock) (avail : List ℕ) (t : Task) (i : ℕ),
      t.estimated_duration_minutes < duration_minutes (blk store i) →
      hpfCommitUpdate store avail t i = (store, avail)) ∧
    (∀ (store : List TimeBlock) (avail : List ℕ) (t : Task) (i : ℕ),
      duration_minutes (blk store i) ≤ t.estimated_duration_minutes →
      hpfCommitUpdate store avail t i =
        (store.set i { blk store i with status := "occupied" }, avail.erase i)) ∧
    (run_hpf_scheduling 0 [pairTaskHigh, pairTaskLow] [wideBlock]).map
        (fun r => r.decisions.map
          (fun d => (d.task_id, d.scheduled_start_time, d.scheduled_end_time))) =
      Except.ok [(1, 0, 60), (2, 0, 60)] := by
  refine ⟨?_, ?_, ?_⟩
  · intro store avail t i h
    unfold hpfCommitUpdate
    rw [if_neg (by omega)]
  · intro store avail t i h
    unfold hpfCommitUpdate
    rw [if_pos h]
  · norm_num [run_hpf_scheduling, hpf_order, prioRel, sort_available, startRel,
      blk, hpfLoop, hpfPick, hpfCommitUpdate, mkHpfDecision, hpfScore, fits,
      truthyInt, duration_minutes, dummyBlock, calculated_priority, Except.map,
      pairTaskHigh, pairTaskLow, wideBlock]

/-- C3: whenever either algorithm completes, the finalized tallies
partition the input: `tasks_scheduled + tasks_unscheduled =
tasks_considered`, and `tasks_considered` is the size of the supplied
task collection. -/
theorem run_counts_partition (now : ℤ) (tasks : List Task)
    (blocks : List TimeBlock) (re rh : RunResult)
    (he : run_edf_scheduling now tasks blocks = Except.ok re)
    (hh : run_hpf_scheduling now tasks blocks = Except.ok rh) :
    re.tasks_scheduled + re.tasks_unscheduled = re.tasks_considered ∧
    re.tasks_considered = tasks.length ∧
    rh.tasks_scheduled + rh.tasks_unscheduled = rh.tasks_considered ∧
    rh.tasks_considered = tasks.length := by
  unfold run_edf_scheduling at he
  unfold run_hpf_scheduling at hh
  split at he
  · exact absurd he (by simp)
  · split at hh
    · exact absurd hh (by simp)
    · injection he with he'
      injection hh with hh'
      subst he'
      subst hh'
      refine ⟨?_, rfl, ?_, rfl⟩
      · have := edfLoop_counts now (edf_order now tasks) blocks
          (sort_available blocks) 0 0 []
        simpa [edf_order_length] using this
      · have := hpfLoop_counts now (hpf_order now tasks) blocks
          (sort_available blocks) 0 0 [] 0
        simpa [hpf_order_length] using this

/-- C3 witness: the tally partition at a concrete completed run. -/
theorem run_counts_partition_witness :
    edfEmptyRun.tasks_scheduled + edfEmptyRun.tasks_unscheduled =
        edfEmptyRun.tasks_considered ∧
    edfEmptyRun.tasks_considered = ([] : List Task).length ∧
    hpfEmptyRun.tasks_scheduled + hpfEmptyRun.tasks_unscheduled =
        hpfEmptyRun.tasks_considered ∧
    hpfEmptyRun.tasks_considered = ([] : List Task).length :=
  run_counts_partition 0 [] [block30] edfEmptyRun hpfEmptyRun rfl rfl

/-- C8 (amended): no fresh copy is taken — the working list holds the
caller's own block objects, and a commit mutates them in place (flipping
status to occupied on full consumption, overwriting `end_time` on an EDF
split); the runs only edit those objects, so the caller's collection
keeps exactly its block count while its contents can change, as the
concrete occupied-status run shows. -/
theorem runs_edit_caller_blocks_in_place (now : ℤ) (tasks : List Task)
    (blocks : List TimeBlock) (re rh : RunResult)
    (he : run_edf_scheduling now tasks blocks = Except.ok re)
    (hh : run_hpf_scheduling now tasks blocks = Except.ok rh) :
    re.final_blocks.length = blocks.length ∧
    rh.final_blocks.length = blocks.length := by
  unfold run_edf_scheduling at he
  unfold run_hpf_scheduling at hh
  split at he
  · exact absurd he (by simp)
  · split at hh
    · exact absurd hh (by simp)
    · injection he with he'
      injection hh with hh'
      subst he'
      subst hh'
      exact ⟨edfLoop_store_length .., hpfLoop_store_length ..⟩

/-- C8 witness: block-count preservation at a concrete run. -/
theorem runs_edit_caller_blocks_in_place_witness :
    edfEmptyRun.final_blocks.length = [block30].length ∧
    hpfEmptyRun.final_blocks.length = [block30].length :=
  runs_edit_caller_blocks_in_place 0 [] [block30] edfEmptyRun hpfEmptyRun rfl rfl

/-- C10 witness: the under-fill and full-consumption branches of the HPF
commit at concrete inputs. -/
theorem hpf_underfill_never_splits_witness :
    hpfCommitUpdate [wideBlock] [0] pairTaskHigh 0 = ([wideBlock], [0]) ∧
    hpfCommitUpdate [soloBlock] [0] task60 0 =
      ([soloBlock].set 0 { blk [soloBlock] 0 with status := "occupied" },
        ([0] : List ℕ).erase 0) :=
  ⟨hpf_underfill_never_splits.1 [wideBlock] [0] pairTaskHigh 0 (by decide),
    hpf_underfill_never_splits.2.1 [soloBlock] [0] task60 0 (by decide)⟩

/-- Inserting into a sorted-by-priority list lands at the same spot under
two instants that assign the same priorities. -/
theorem orderedInsert_prio_congr (n n' : ℤ) (x : Task)
    (hx : calculated_priority n x = calculated_priority n' x) :
    ∀ l : List Task, (∀ a ∈ l, calculated_priority n a = calculated_priority n' a) →
      List.orderedInsert (prioRel n) x l = List.orderedInsert (prioRel n') x l := by
  intro l
  induction l with
  | nil =>
    intro _
    rw [List.orderedInsert_nil, List.orderedInsert_nil]
  | cons b l ih =>
    intro hl
    have hb := hl b (List.mem_cons_self b l)
    have hiff : prioRel n x b ↔ prioRel n' x b := by
      unfold prioRel; rw [hb, hx]
    rw [List.orderedInsert, List.orderedInsert]
    exact if_congr hiff rfl
      (by rw [ih (fun a ha => hl a (List.mem_cons_of_mem b ha))])

/-- The descending-priority sort is determined by the priorities it
compares. -/
theorem insertionSort_prio_congr (n n' : ℤ) :
    ∀ l : List Task, (∀ a ∈ l, calculated_priority n a = calculated_priority n' a) →
      List.insertionSort (prioRel n) l = List.insertionSort (prioRel n') l := by
  intro l
  induction l with
  | nil => intro _; rw [List.insertionSort, List.insertionSort]
  | cons a l ih =>
    intro hl
    rw [List.insertionSort, List.insertionSort,
      ih (fun b hb => hl b (List.mem_cons_of_mem a hb))]
    exact orderedInsert_prio_congr n n' a (hl a (List.mem_cons_self a l)) _
      (fun b hb => hl b (List.mem_cons_of_mem a
        ((List.mem_insertionSort (prioRel n')).mp hb)))

/-- The HPF block score only sees the instant through the task's
priority. -/
theorem hpfScore_congr {n n' : ℤ} {t : Task}
    (h : calculated_priority n t = calculated_priority n' t)
    (store : List TimeBlock) (i : ℕ) :
    hpfScore n store t i = hpfScore n' store t i := by
  unfold hpfScore
  rw [h]

/-- The HPF best-fit scan only sees the instant through the task's
priority. -/
theorem hpfPick_congr {n n' : ℤ} {t : Task} (store : List TimeBlock)
    (h : calculated_priority n t = calculated_priority n' t) :
    ∀ (l : List ℕ) (acc : Option ℕ × ℚ),
      hpfPick n store t l acc = hpfPick n' store t l acc := by
  intro l
  induction l with
  | nil => intro acc; rw [hpfPick, hpfPick]
  | cons i rest ih =>
    intro acc
    rw [hpfPick, hpfPick, hpfScore_congr h store i]
    split
    · split
      · rw [ih]
      · rw [ih]
    · rw [ih]

/-- The HPF loop's entire output is determined by the priorities of the
tasks it processes. -/
theorem hpfLoop_congr (n n' : ℤ) :
    ∀ (ts : List Task) store avail s u ds tp,
      (∀ t ∈ ts, calculated_priority n t = calculated_priority n' t) →
      hpfLoop n ts store avail s u ds tp = hpfLoop n' ts store avail s u ds tp := by
  intro ts
  induction ts with
  | nil => intro store avail s u ds tp _; rw [hpfLoop, hpfLoop]
  | cons t rest ih =>
    intro store avail s u ds tp hl
    have ht := hl t (List.mem_cons_self t rest)
    have htl := fun a ha => hl a (List.mem_cons_of_mem t ha)
    rw [hpfLoop, hpfLoop, hpfPick_congr store ht]
    rcases hpick : hpfPick n' store t avail (none, -1) with ⟨fst, snd⟩
    cases fst with
    | none => exact ih _ _ _ _ _ _ htl
    | some i =>
      dsimp only
      rw [show mkHpfDecision n snd t (blk store i) =
          mkHpfDecision n' snd t (blk store i) by unfold mkHpfDecision; rw [ht], ht,
        ih _ _ _ _ _ _ htl]

/-- C9 (amended): the instant enters the HPF run only through the
priorities it evaluates — two runs whose instants give every input task
the same `calculated_priority` return identical results (counts,
decisions, final blocks); with the wall clock read internally, runs
observing different instants may instead place different tasks. -/
theorem hpf_run_determined_by_priorities (n n' : ℤ) (tasks : List Task)
    (blocks : List TimeBlock)
    (h : ∀ t ∈ tasks, calculated_priority n t = calculated_priority n' t) :
    run_hpf_scheduling n tasks blocks = run_hpf_scheduling n' tasks blocks := by
  unfold run_hpf_scheduling
  split
  · rfl
  · have hsort : hpf_order n tasks = hpf_order n' tasks := by
      unfold hpf_order
      exact insertionSort_prio_congr n n' tasks h
    have hmem : ∀ t ∈ hpf_order n' tasks,
        calculated_priority n t = calculated_priority n' t := by
      intro t ht
      exact h t ((List.mem_insertionSort (prioRel n')).mp ht)
    dsimp only
    rw [hsort, hpfLoop_congr n n' (hpf_order n' tasks) blocks
      (sort_available blocks) 0 0 [] 0 hmem]

/-- C9 witness: a deadline-less task has the same priority at instants 7
and 99, so the two HPF runs coincide. -/
theorem hpf_run_determined_by_priorities_witness :
    run_hpf_scheduling 7 [steadyTask] [soloBlock] =
      run_hpf_scheduling 99 [steadyTask] [soloBlock] :=
  hpf_run_determined_by_priorities 7 99 [steadyTask] [soloBlock] (by
    intro t ht
    rw [List.mem_singleton.mp ht]
    norm_num [calculated_priority, steadyTask])

/-- What the HPF best-fit scan computes, for any running accumulator: the
final score dominates the accumulator and every candidate, and either the
accumulator survives untouched or the scan returns the first candidate
attaining the running maximum (hence, on a start-sorted list, the
earliest-start one among equal-score candidates). -/
theorem hpfPick_max (now : ℤ) (store : List TimeBlock) (t : Task) :
    ∀ (l : List ℕ) (acc : Option ℕ × ℚ), l.Pairwise (startRel store) →
      acc.2 ≤ (hpfPick now store t l acc).2 ∧
      (∀ i ∈ l, fits t (blk store i) = true →
        hpfScore now store t i ≤ (hpfPick now store t l acc).2) ∧
      (hpfPick now store t l acc = acc ∨
        ∃ j, j ∈ l ∧ fits t (blk store j) = true ∧
          (hpfPick now store t l acc).1 = some j ∧
          (hpfPick now store t l acc).2 = hpfScore now store t j ∧
          acc.2 < hpfScore now store t j ∧
          ∀ i ∈ l, fits t (blk store i) = true →
            hpfScore now store t i = hpfScore now store t j →
            (blk store j).start_time ≤ (blk store i).start_time) := by
  intro l
  induction l with
  | nil =>
    intro acc _
    exact ⟨le_refl _, by simp, Or.inl rfl⟩
  | cons x rest ih =>
    intro acc hp
    have hx : ∀ k ∈ rest, (blk store x).start_time ≤ (blk store k).start_time :=
      fun k hk => List.rel_of_pairwise_cons hp hk
    have hrest := hp.of_cons
    rw [hpfPick]
    by_cases hc : fits t (blk store x) = true
    · rw [if_pos hc]
      by_cases hlt : acc.2 < hpfScore now store t x
      · rw [if_pos hlt]
        obtain ⟨ih1, ih2, ih3⟩ := ih (some x, hpfScore now store t x) hrest
        refine ⟨le_of_lt (lt_of_lt_of_le hlt ih1), ?_, ?_⟩
        · intro k hk hkc
          rcases List.mem_cons.mp hk with hkx | hkr
          · subst hkx; exact ih1
          · exact ih2 k hkr hkc
        · rcases ih3 with heq | ⟨j, hj, hjc, hj1, hj2, hjlt, hjties⟩
          · refine Or.inr ⟨x, List.mem_cons_self x rest, hc,
              by rw [heq], by rw [heq], hlt, ?_⟩
            intro k hk hkc hke
            rcases List.mem_cons.mp hk with hkx | hkr
            · subst hkx; exact le_refl _
            · exact hx k hkr
          · refine Or.inr ⟨j, List.mem_cons_of_mem x hj, hjc, hj1, hj2,
              lt_trans hlt hjlt, ?_⟩
            intro k hk hkc hke
            rcases List.mem_cons.mp hk with hkx | hkr
            · subst hkx; exact absurd hke (ne_of_lt hjlt)
            · exact hjties k hkr hkc hke
      · rw [if_neg hlt]
        obtain ⟨ih1, ih2, ih3⟩ := ih acc hrest
        have hxle : hpfScore now store t x ≤ acc.2 := le_of_not_lt hlt
        refine ⟨ih1, ?_, ?_⟩
        · intro k hk hkc
          rcases List.mem_cons.mp hk with hkx | hkr
          · subst hkx; exact le_trans hxle ih1
          · exact ih2 k hkr hkc
        · rcases ih3 with heq | ⟨j, hj, hjc, hj1, hj2, hjlt, hjties⟩
          · exact Or.inl heq
          · refine Or.inr ⟨j, List.mem_cons_of_mem x hj, hjc, hj1, hj2, hjlt, ?_⟩
            intro k hk hkc hke
            rcases List.mem_cons.mp hk with hkx | hkr
            · subst hkx
              exact absurd hke (ne_of_lt (lt_of_le_of_lt hxle hjlt))
            · exact hjties k hkr hkc hke
    · rw [if_neg hc]
      obtain ⟨ih1, ih2, ih3⟩ := ih acc hrest
      refine ⟨ih1, ?_, ?_⟩
      · intro k hk hkc
        rcases List.mem_cons.mp hk with hkx | hkr
        · subst hkx; exact absurd hkc hc
        · exact ih2 k hkr hkc
      · rcases ih3 with heq | ⟨j, hj, hjc, hj1, hj2, hjlt, hjties⟩
        · exact Or.inl heq
        · refine Or.inr ⟨j, List.mem_cons_of_mem x hj, hjc, hj1, hj2, hjlt, ?_⟩
          intro k hk hkc hke
          rcases List.mem_cons.mp hk with hkx | hkr
          · subst hkx; exact absurd hkc hc
          · exact hjties k hkr hkc hke

/-- C6: when at least one candidate exists (and every candidate scores
above the scan's -1 sentinel, as the data-model ranges guarantee), the
HPF best-fit scan over the start-sorted working list picks a candidate of
maximal `block_score = priority*0.4 + duration_efficiency*0.3 + 1.0*0.2 +
importance_weight*0.1`, and among equal-score maximizers the one with the
earliest start. -/
theorem hpf_best_fit_chooses_argmax (now : ℤ) (store : List TimeBlock)
    (t : Task) (avail : List ℕ)
    (hsort : avail.Pairwise (startRel store))
    (hex : ∃ i, i ∈ avail ∧ fits t (blk store i) = true)
    (hpos : ∀ i ∈ avail, fits t (blk store i) = true →
      -1 < hpfScore now store t i) :
    ∃ j, j ∈ avail ∧ fits t (blk store j) = true ∧
      (hpfPick now store t avail (none, -1)).1 = some j ∧
      (∀ i ∈ avail, fits t (blk store i) = true →
        hpfScore now store t i ≤ hpfScore now store t j) ∧
      (∀ i ∈ avail, fits t (blk store i) = true →
        hpfScore now store t i = hpfScore now store t j →
        (blk store j).start_time ≤ (blk store i).start_time) := by
  obtain ⟨_, h2, h3⟩ := hpfPick_max now store t avail (none, -1) hsort
  rcases h3 with heq | ⟨j, hj, hjc, hj1, hj2, _, hjties⟩
  · exfalso
    obtain ⟨i0, hi0, hc0⟩ := hex
    have hle := h2 i0 hi0 hc0
    rw [heq] at hle
    exact absurd hle (not_le_of_lt (hpos i0 hi0 hc0))
  · refine ⟨j, hj, hjc, hj1, ?_, hjties⟩
    intro i hi hic
    have := h2 i hi hic
    rw [hj2] at this
    exact this

/-- C6 witness: two available blocks (starts 0 and 540), a fitting task,
all hypotheses discharged concretely. -/
theorem hpf_best_fit_chooses_argmax_witness :
    ∃ j, j ∈ [0, 1] ∧ fits task60 (blk [block60, nineBlock] j) = true ∧
      (hpfPick 0 [block60, nineBlock] task60 [0, 1] (none, -1)).1 = some j ∧
      (∀ i ∈ [0, 1], fits task60 (blk [block60, nineBlock] i) = true →
        hpfScore 0 [block60, nineBlock] task60 i ≤
          hpfScore 0 [block60, nineBlock] task60 j) ∧
      (∀ i ∈ [0, 1], fits task60 (blk [block60, nineBlock] i) = true →
        hpfScore 0 [block60, nineBlock] task60 i =
          hpfScore 0 [block60, nineBlock] task60 j →
        (blk [block60, nineBlock] j).start_time ≤
          (blk [block60, nineBlock] i).start_time) :=
  hpf_best_fit_chooses_argmax 0 [block60, nineBlock] task60 [0, 1]
    (by decide) ⟨0, by decide, by decide⟩
    (by
      intro i hi hic
      fin_cases hi <;>
        norm_num [hpfScore, blk, duration_minutes, calculated_priority,
          task60, block60, nineBlock, dummyBlock])

/-- Every earlier-positioned task of the EDF attempt order has a deadline
no later than any later-positioned one, whenever both carry deadlines:
the deadline-bearing prefix is sorted by `(deadline, -priority)` and the
deadline-less suffix never witnesses the hypothesis. -/
theorem edf_order_deadline_pairwise (now : ℤ) (ts : List Task) :
    (edf_order now ts).Pairwise
      (fun a b => ∀ da db, a.deadline = some da → b.deadline = some db →
        da ≤ db) := by
  unfold edf_order
  have hnone : ∀ b ∈ List.insertionSort (prioRel now)
      (ts.filter (fun t => !t.deadline.isSome)), b.deadline = none := by
    intro b hb
    have hmem := (List.mem_insertionSort (prioRel now)).mp hb
    have hfil := (List.mem_filter.mp hmem).2
    cases hd : b.deadline with
    | none => rfl
    | some d => rw [hd] at hfil; simp at hfil
  refine List.pairwise_append.mpr ⟨?_, ?_, ?_⟩
  · have hs := List.sorted_insertionSort (edfRel now)
      (ts.filter (fun t => t.deadline.isSome))
    refine hs.imp ?_
    intro a b hab da db hda hdb
    rcases hab with h | ⟨h, _⟩
    · rw [hda, hdb] at h
      simp only [Option.getD_some] at h
      exact le_of_lt h
    · rw [hda, hdb] at h
      simp only [Option.getD_some] at h
      exact le_of_eq h
  · refine List.pairwise_iff_getElem.mpr ?_
    intro i j hi hj hij da db hda hdb
    have := hnone _ (List.getElem_mem hi)
    rw [this] at hda
    exact Option.noConfusion hda
  · intro a ha b hb da db hda hdb
    have := hnone b hb
    rw [this] at hdb
    exact Option.noConfusion hdb

/-- C7: the EDF scheduler attempts tasks in the order `edf_order`
(deadline-bearing ascending by `(deadline, -calculated_priority)`, then
deadline-less descending by priority); consequently a deadline-bearing
task with the strictly earlier deadline occupies a strictly earlier
position of that order than one with a later deadline. -/
theorem edf_earlier_deadline_attempted_first (now : ℤ) (ts : List Task)
    (A B : Task) (da db : ℤ) (hA : A.deadline = some da)
    (hB : B.deadline = some db) (hlt : da < db) (i j : ℕ)
    (hiA : (edf_order now ts)[i]? = some A)
    (hjB : (edf_order now ts)[j]? = some B) : i < j := by
  obtain ⟨hi, hgi⟩ := List.getElem?_eq_some.mp hiA
  obtain ⟨hj, hgj⟩ := List.getElem?_eq_some.mp hjB
  rcases lt_trichotomy i j with h | h | h
  · exact h
  · exfalso
    subst h
    have hAB : A = B := by rw [← hgi, ← hgj]
    rw [hAB, hB] at hA
    injection hA with h'
    omega
  · exfalso
    have hp := List.pairwise_iff_getElem.mp
      (edf_order_deadline_pairwise now ts) j i hj hi h
    rw [hgj, hgi] at hp
    exact absurd (hp db da hB hA) (by omega)

/-- C7 witness: with the later-deadline task listed first, the attempt
order still places the earlier-deadline task at position 0. -/
theorem edf_earlier_deadline_attempted_first_witness :
    (edf_order 0 [lateTask, earlyTask])[0]? = some earlyTask ∧
    (edf_order 0 [lateTask, earlyTask])[1]? = some lateTask ∧ (0 : ℕ) < 1 := by
  have h0 : (edf_order 0 [lateTask, earlyTask])[0]? = some earlyTask := by
    norm_num [edf_order, edfRel, prioRel, calculated_priority, lateTask, earlyTask]
  have h1 : (edf_order 0 [lateTask, earlyTask])[1]? = some lateTask := by
    norm_num [edf_order, edfRel, prioRel, calculated_priority, lateTask, earlyTask]
  exact ⟨h0, h1, edf_earlier_deadline_attempted_first 0 [lateTask, earlyTask]
    earlyTask lateTask 100 200 rfl rfl (by norm_num) 0 1 h0 h1⟩

end DjangoSched
